import Mathlib

/-!
Verification of the Dashboard repository (src/VC.py and helpers).

The Python program is shallowly embedded in Lean:
  - Python strings are modelled as Lean `String` (a structure over `List Char`);
    character-level operations work on the underlying `List Char`.
  - pandas DataFrames are modelled column-major, as association lists from a
    column name to the list of cell values of that column.
  - The external hash primitive `hashlib.pbkdf2_hmac("sha256", ...)` is not
    code of this repository; it is abstracted as an explicit function
    parameter from (password bytes, salt bytes, iteration count) to the
    derived-key bytes.
  - File I/O is made explicit: functions take the current file contents (or
    `Option` contents when the file may be missing) and return new contents;
    a Python function that raises is modelled with `Except`.
  - Machine-independent `int` arithmetic of Python is modelled with `Nat`/`Int`.
-/

namespace Dashboard

/-- Decimal digit character, `digitChar d` is the character for digit `d < 10`. -/
def digitChar (d : Nat) : Char := Char.ofNat (48 + d)

/-- Decimal rendering of a natural number, most significant digit first.
The first argument is fuel; `natDigits` below always supplies enough. -/
def natDigitsAux : Nat → Nat → List Char
  | 0, _ => []
  | fuel + 1, n =>
    if n < 10 then [digitChar n]
    else natDigitsAux fuel (n / 10) ++ [digitChar (n % 10)]

/-- Decimal digits of `n`, as produced by Python string formatting of an int. -/
def natDigits (n : Nat) : List Char := natDigitsAux (n + 1) n

/-- Value of a decimal digit string, as computed by Python `int(s)` on a
digit-only string (leading zeros allowed). -/
def charsToNat (cs : List Char) : Nat := cs.foldl (fun a c => 10 * a + (c.toNat - 48)) 0

/-- Zero padding to width 3: the digits of `n` preceded by enough `0`
characters to reach length 3, i.e. Python `f"{n:03d}"` without the sign. -/
def zfill3 (n : Nat) : List Char :=
  List.replicate (3 - (natDigits n).length) '0' ++ natDigits n

/-- The per-value pattern test inside `next_item_id` (VC.py lines 97-102):
a value counts when its uppercase form starts with `LAB` and the rest is a
non-empty digit string; the numeric value of the rest is returned.
Python `str.upper` and `str.isdigit` are modelled at ASCII granularity
(`Char.toUpper`, `Char.isDigit`); the ids of this program are ASCII. -/
def labNumCore (v : List Char) : Option Nat :=
  if (v.map Char.toUpper).take 3 = ['L', 'A', 'B'] ∧ v.drop 3 ≠ [] ∧ (v.drop 3).all Char.isDigit then
    some (charsToNat (v.drop 3))
  else
    none

/-- `labNumCore` on a `String` value of the `Item ID` column. -/
def labNum (v : String) : Option Nat := labNumCore v.data

/-- Maximum of a list of naturals, 0 when empty (Python `max(nums)` is only
reached on a non-empty list, where the two agree since ids are ≥ 0). -/
def maxList (ns : List Nat) : Nat := ns.foldr max 0

/-- next_item_id (VC.py lines 94-104): collect the numeric parts of all
`Item ID` values matching the LAB pattern, take max+1 (1 when none match),
and render as `LAB` plus the number zero-padded to width 3. -/
def next_item_id (ids : List String) : String :=
  let nums := ids.filterMap labNum
  let n := match nums with
    | [] => 1
    | _ => maxList nums + 1
  String.mk ('L' :: 'A' :: 'B' :: zfill3 n)

theorem digitChar_toNat : ∀ d < 10, (digitChar d).toNat = 48 + d := by decide

theorem digitChar_isDigit : ∀ d < 10, (digitChar d).isDigit = true := by decide

theorem charsToNat_append_singleton (xs : List Char) (c : Char) :
    charsToNat (xs ++ [c]) = 10 * charsToNat xs + (c.toNat - 48) := by
  simp [charsToNat, List.foldl_append]

theorem charsToNat_natDigitsAux : ∀ fuel n, n < fuel → charsToNat (natDigitsAux fuel n) = n := by
  intro fuel
  induction fuel with
  | zero => intro n hn; omega
  | succ fuel ih =>
    intro n hn
    by_cases h10 : n < 10
    · simp [natDigitsAux, h10, charsToNat, digitChar_toNat n h10]
    · have hdiv : n / 10 < n := Nat.div_lt_self (by omega) (by omega)
      have hrec := ih (n / 10) (by omega)
      have hmod : n % 10 < 10 := Nat.mod_lt _ (by omega)
      simp only [natDigitsAux, h10, if_false, charsToNat_append_singleton, hrec,
        digitChar_toNat (n % 10) hmod]
      omega

theorem charsToNat_natDigits (n : Nat) : charsToNat (natDigits n) = n :=
  charsToNat_natDigitsAux (n + 1) n (Nat.lt_succ_self n)

theorem natDigitsAux_ne_nil : ∀ fuel n, 0 < fuel → natDigitsAux fuel n ≠ [] := by
  intro fuel n hf
  cases fuel with
  | zero => omega
  | succ fuel =>
    by_cases h10 : n < 10 <;> simp [natDigitsAux, h10]

theorem natDigitsAux_all_digits :
    ∀ fuel n, ∀ c ∈ natDigitsAux fuel n, c.isDigit = true := by
  intro fuel
  induction fuel with
  | zero => intro n c hc; simp [natDigitsAux] at hc
  | succ fuel ih =>
    intro n c hc
    by_cases h10 : n < 10
    · simp [natDigitsAux, h10] at hc
      subst hc
      exact digitChar_isDigit n h10
    · simp [natDigitsAux, h10] at hc
      rcases hc with hc | hc
      · exact ih (n / 10) c hc
      · subst hc
        exact digitChar_isDigit (n % 10) (Nat.mod_lt _ (by omega))

theorem charsToNat_replicate_zero (k : Nat) (l : List Char) :
    charsToNat (List.replicate k '0' ++ l) = charsToNat l := by
  have hz : List.foldl (fun a c => 10 * a + (c.toNat - 48)) 0 (List.replicate k '0') = 0 := by
    induction k with
    | zero => rfl
    | succ k ihk => simpa [List.replicate_succ]
  simp [charsToNat, List.foldl_append, hz]

/-- The id string rendered by `next_item_id` parses back, under `labNum`,
to the number it was rendered from. -/
theorem labNum_render (n : Nat) : labNum (String.mk ('L' :: 'A' :: 'B' :: zfill3 n)) = some n := by
  have hne : zfill3 n ≠ [] := by
    intro h
    have := natDigitsAux_ne_nil (n + 1) n (Nat.succ_pos n)
    simp [zfill3, natDigits] at h
    exact this h.2
  have hdig : (zfill3 n).all Char.isDigit = true := by
    rw [List.all_eq_true]
    intro c hc
    rcases List.mem_append.mp hc with hc | hc
    · rcases List.eq_of_mem_replicate hc with rfl
      decide
    · exact natDigitsAux_all_digits (n + 1) n c hc
  have hval : charsToNat (zfill3 n) = n := by
    rw [zfill3, charsToNat_replicate_zero, charsToNat_natDigits]
  simp [labNum, labNumCore, hne, hdig, hval]

theorem le_maxList : ∀ (ns : List Nat) (k : Nat), k ∈ ns → k ≤ maxList ns := by
  intro ns
  induction ns with
  | nil => intro k hk; cases hk
  | cons a tl ih =>
    intro k hk
    rcases List.mem_cons.mp hk with rfl | hk
    · exact le_max_left _ _
    · exact le_trans (ih k hk) (le_max_right _ _)

/-- C2: next_item_id scans the `Item ID` values for the LAB+digits pattern
and returns `LAB` followed by the zero-padded successor of the maximum
number found (1 when nothing matches, since the fold-maximum of an empty
list is 0); concretely it maps {LAB001, LAB003} to LAB004 and the empty
table to LAB001. -/
theorem next_item_id_spec :
    (∀ ids : List String,
      next_item_id ids = String.mk ('L' :: 'A' :: 'B' :: zfill3 (maxList (ids.filterMap labNum) + 1)))
    ∧ next_item_id ["LAB001", "LAB003"] = "LAB004"
    ∧ next_item_id [] = "LAB001" := by
  refine ⟨?_, by decide, by decide⟩
  intro ids
  cases h : ids.filterMap labNum with
  | nil => simp [next_item_id, h, maxList]
  | cons a tl => simp [next_item_id, h]

/-- C9 (amended): the id returned by `next_item_id` differs from every
`Item ID` already in the table that matches the LAB pattern, so the Add
Item path cannot duplicate an existing LAB-pattern id. -/
theorem next_item_id_fresh (ids : List String) (v : String)
    (hv : v ∈ ids) (hpat : (labNum v).isSome = true) :
    next_item_id ids ≠ v := by
  rcases Option.isSome_iff_exists.mp hpat with ⟨k, hk⟩
  have hmem : k ∈ ids.filterMap labNum := List.mem_filterMap.mpr ⟨v, hv, hk⟩
  intro heq
  cases hn : ids.filterMap labNum with
  | nil => rw [hn] at hmem; cases hmem
  | cons a tl =>
    have hnext : next_item_id ids
        = String.mk ('L' :: 'A' :: 'B' :: zfill3 (maxList (a :: tl) + 1)) := by
      simp [next_item_id, hn]
    have hlab : labNum v = some (maxList (a :: tl) + 1) := by
      rw [← heq, hnext]
      exact labNum_render _
    have hk2 : k = maxList (a :: tl) + 1 := by
      rw [hk] at hlab
      exact Option.some.inj hlab
    have hle : k ≤ maxList (a :: tl) := by
      rw [hn] at hmem
      exact le_maxList _ k hmem
    omega

theorem next_item_id_fresh_witness :
    ("LAB001" : String) ∈ ["LAB001", "LAB003"]
    ∧ (labNum "LAB001").isSome = true
    ∧ next_item_id ["LAB001", "LAB003"] ≠ "LAB001" :=
  ⟨by decide, by decide, next_item_id_fresh ["LAB001", "LAB003"] "LAB001" (by decide) (by decide)⟩

/-! DataFrames are modelled column-major: an association list from column
name to the list of cells of that column.  A raw table (as read from a
spreadsheet, `dtype=str`) has string cells; a loaded inventory table has
either string cells or integer cells (after the numeric coercion that
`load_inventory` and the bulk-upload handler apply). -/

/-- A cell of a loaded inventory table: a string or a coerced integer. -/
inductive Cell where
  | s (v : String)
  | i (v : Int)
deriving DecidableEq

/-- A table as read from the backing spreadsheet, before coercion. -/
abbrev RawTable := List (String × List String)

/-- A loaded inventory table. -/
abbrev Table := List (String × List Cell)

/-- The fixed column set of the inventory (VC.py lines 62-63 and 70-71). -/
def inventoryColumns : List String :=
  ["Item ID", "Item Name", "Category", "Quantity", "Unit", "Reorder Level",
   "Supplier", "Last Restocked", "Expiry Date", "Storage Location", "Remarks"]

/-- The columns that `load_inventory` and the bulk-upload handler coerce
with `pd.to_numeric(..., errors="coerce").fillna(0).astype(int)`. -/
def numericColumns : List String := ["Quantity", "Reorder Level"]

/-- Unsigned numeric literal: a digit string optionally followed by a point
and further digits, at least one digit in total; the value is the integer
part (fractional digits are discarded, as `astype(int)` truncates toward
zero).  This models the subset of `pd.to_numeric` literals the program
meets; exponent forms and surrounding whitespace are out of scope. -/
def parseUnsigned? (cs : List Char) : Option Nat :=
  let intPart := cs.takeWhile Char.isDigit
  match cs.dropWhile Char.isDigit with
  | [] => if intPart = [] then none else some (charsToNat intPart)
  | '.' :: frac =>
    if (intPart ≠ [] ∨ frac ≠ []) ∧ frac.all Char.isDigit then some (charsToNat intPart)
    else none
  | _ => none

/-- Optionally signed numeric literal; magnitude truncated toward zero. -/
def parsePyNumber? (cs : List Char) : Option Int :=
  match cs with
  | '-' :: rest => (parseUnsigned? rest).map (fun n => -(n : Int))
  | '+' :: rest => (parseUnsigned? rest).map (fun n => (n : Int))
  | _ => (parseUnsigned? cs).map (fun n => (n : Int))

/-- One cell under `pd.to_numeric(col, errors="coerce").fillna(0).astype(int)`:
the truncated numeric value when the cell parses as a number, else 0
(the unparsable cell becomes NaN, and `fillna(0)` turns it into 0). -/
def coerceCell (s : String) : Int := (parsePyNumber? s.data).getD 0

/-- A whole column as produced by `load_inventory` / the bulk-upload save:
numeric columns are coerced cellwise to integers, other columns kept as
strings. -/
def coerceColumnCells (name : String) (vals : List String) : List Cell :=
  if name ∈ numericColumns then vals.map (fun v => Cell.i (coerceCell v))
  else vals.map Cell.s

/-- The fill value used for a column absent from the backing file
(VC.py line 74): 0 for the numeric columns, the empty string otherwise. -/
def defaultCell (name : String) : Cell :=
  if name ∈ numericColumns then Cell.i 0 else Cell.s ""

/-- load_inventory (VC.py lines 60-75).  A missing backing file (`none`)
yields the empty table over the fixed column set instead of an error; an
existing file is read, the numeric columns are coerced, absent columns are
filled with their default, and the fixed column set is selected in order.
The row count of a fill column is the row count of the file. -/
def load_inventory (file : Option RawTable) : Table :=
  match file with
  | none => inventoryColumns.map (fun c => (c, []))
  | some raw =>
    let nrows := (raw.head?.map (fun p => p.2.length)).getD 0
    inventoryColumns.map (fun c =>
      match raw.find? (fun p => p.1 == c) with
      | some p => (c, coerceColumnCells c p.2)
      | none => (c, List.replicate nrows (defaultCell c)))

/-- The `Save uploaded inventory` handler (VC.py lines 592-601): when the
uploaded table has no `Item ID` column, an error is shown and nothing is
written (the current table is returned unchanged, paired with the error
message); otherwise the numeric columns are re-coerced and the uploaded
table wholesale-replaces the inventory (no error). -/
def bulkUploadStep (uploaded : RawTable) (current : Table) : Table × Option String :=
  if "Item ID" ∈ uploaded.map Prod.fst then
    (uploaded.map (fun p => (p.1, coerceColumnCells p.1 p.2)), none)
  else
    (current, some "Uploaded file must contain \x27Item ID\x27 column.")

/-- C5: load_inventory on a missing backing file returns (rather than
raising — it is a total function) the zero-row table with exactly the
fixed eleven-column schema, in order. -/
theorem load_inventory_missing_file :
    load_inventory none =
      [("Item ID", []), ("Item Name", []), ("Category", []), ("Quantity", []),
       ("Unit", []), ("Reorder Level", []), ("Supplier", []), ("Last Restocked", []),
       ("Expiry Date", []), ("Storage Location", []), ("Remarks", [])]
    ∧ (load_inventory none).map Prod.fst = inventoryColumns
    ∧ (load_inventory none).length = 11 := by
  refine ⟨by decide, by decide, by decide⟩

/-- C3 counterexample: the loaded numeric columns are NOT always
non-negative — a backing file whose Quantity cell is the string `-5`
loads as the integer -5, since `pd.to_numeric` accepts negative literals
and nothing clamps the sign. -/
theorem load_inventory_negative_cell :
    ¬ (∀ (file : Option RawTable) (col : String × List Cell),
        col ∈ load_inventory file → col.1 ∈ numericColumns →
        ∀ v : Int, Cell.i v ∈ col.2 → 0 ≤ v) := by
  intro h
  have hmem : ("Quantity", [Cell.i (-5)]) ∈ load_inventory (some [("Quantity", ["-5"])]) := by
    decide
  have := h (some [("Quantity", ["-5"])]) ("Quantity", [Cell.i (-5)]) hmem (by decide) (-5)
    (by decide)
  omega

/-- C3 (amended): after load_inventory, every cell of a numeric column
(Quantity, Reorder Level) is an integer, and any cell value that fails to
parse as a number is replaced by 0; negative numeric strings are kept as
negative integers, so non-negativity is not guaranteed. -/
theorem load_inventory_numeric_coercion (file : Option RawTable) (name : String)
    (cells : List Cell) (hnum : name ∈ numericColumns)
    (hcol : (name, cells) ∈ load_inventory file) :
    (∀ c ∈ cells, ∃ v : Int, c = Cell.i v)
    ∧ (∀ s : String, parsePyNumber? s.data = none → coerceCell s = 0) := by
  refine ⟨?_, fun s hs => by simp [coerceCell, hs]⟩
  intro c hc
  cases file with
  | none =>
    rcases List.mem_map.mp hcol with ⟨a, _, hfa⟩
    have hcells : cells = [] := (Prod.mk.injEq _ _ _ _).mp hfa |>.2.symm
    rw [hcells] at hc
    cases hc
  | some raw =>
    rcases List.mem_map.mp hcol with ⟨a, _, hfa⟩
    cases hfind : raw.find? (fun p => p.1 == a) with
    | some p =>
      rw [hfind] at hfa
      rcases (Prod.mk.injEq _ _ _ _).mp hfa with ⟨rfl, hcells⟩
      rw [← hcells, coerceColumnCells, if_pos hnum] at hc
      rcases List.mem_map.mp hc with ⟨v, _, hv⟩
      exact ⟨coerceCell v, hv.symm⟩
    | none =>
      rw [hfind] at hfa
      rcases (Prod.mk.injEq _ _ _ _).mp hfa with ⟨rfl, hcells⟩
      rw [← hcells] at hc
      rcases List.eq_of_mem_replicate hc with rfl
      exact ⟨0, by simp [defaultCell, hnum]⟩

theorem load_inventory_numeric_coercion_witness :
    ("Quantity" : String) ∈ numericColumns
    ∧ ("Quantity", [Cell.i 0]) ∈ load_inventory (some [("Quantity", ["abc"])])
    ∧ ((∀ c ∈ [Cell.i 0], ∃ v : Int, c = Cell.i v)
       ∧ (∀ s : String, parsePyNumber? s.data = none → coerceCell s = 0)) :=
  ⟨by decide, by decide,
   load_inventory_numeric_coercion (some [("Quantity", ["abc"])]) "Quantity" [Cell.i 0]
     (by decide) (by decide)⟩

/-- C7: a bulk upload without an `Item ID` column is rejected with an error
and the inventory is unchanged (no write happens); an upload that has the
column wholesale-replaces the inventory, with the numeric columns
re-coerced. -/
theorem bulk_upload_guard (uploaded : RawTable) (current : Table) :
    ("Item ID" ∉ uploaded.map Prod.fst →
        bulkUploadStep uploaded current
          = (current, some "Uploaded file must contain \x27Item ID\x27 column."))
    ∧ ("Item ID" ∈ uploaded.map Prod.fst →
        bulkUploadStep uploaded current
          = (uploaded.map (fun p => (p.1, coerceColumnCells p.1 p.2)), none)) := by
  constructor <;> intro h <;> simp [bulkUploadStep, h]

theorem bulk_upload_guard_witness :
    bulkUploadStep [("Item Name", ["x"])] (load_inventory none)
      = (load_inventory none, some "Uploaded file must contain \x27Item ID\x27 column.")
    ∧ bulkUploadStep [("Item ID", ["LAB001"]), ("Quantity", ["7"])] (load_inventory none)
      = ([("Item ID", [Cell.s "LAB001"]), ("Quantity", [Cell.i 7])], none) :=
  ⟨(bulk_upload_guard [("Item Name", ["x"])] (load_inventory none)).1 (by decide),
   (bulk_upload_guard [("Item ID", ["LAB001"]), ("Quantity", ["7"])] (load_inventory none)).2
     (by decide)⟩

/-- The Item ID column of a loaded table (empty when absent). -/
def itemIds (t : Table) : List Cell :=
  ((t.find? (fun p => p.1 == "Item ID")).map Prod.snd).getD []

/-- C9 counterexample: Item ID uniqueness is NOT preserved by every
mutating operation — a bulk upload whose file contains the `Item ID`
column twice with the same id passes the guard and replaces an inventory
with unique ids by one with a duplicated id. -/
theorem bulk_upload_breaks_id_uniqueness :
    (itemIds (load_inventory none)).Nodup
    ∧ (bulkUploadStep [("Item ID", ["LAB001", "LAB001"])] (load_inventory none)).2 = none
    ∧ ¬ (itemIds
          (bulkUploadStep [("Item ID", ["LAB001", "LAB001"])] (load_inventory none)).1).Nodup := by
  refine ⟨by decide, by decide, by decide⟩

/-! Credential store (VC.py lines 20-56, 88-92, 175-199, 619-652).
Bytes are naturals below 256.  The external primitive
`hashlib.pbkdf2_hmac("sha256", password, salt, iterations)` is abstracted
as a parameter `pbkdf2_hmac` mapping password bytes, salt bytes and the
iteration count to the derived-key bytes. -/

/-- UTF-8 bytes of one character (RFC 3629), modelling Python
`str.encode("utf-8")` charwise. -/
def utf8Bytes (c : Char) : List Nat :=
  let n := c.toNat
  if n < 128 then [n]
  else if n < 2048 then [192 + n / 64, 128 + n % 64]
  else if n < 65536 then [224 + n / 4096, 128 + (n / 64) % 64, 128 + n % 64]
  else [240 + n / 262144, 128 + (n / 4096) % 64, 128 + (n / 64) % 64, 128 + n % 64]

/-- UTF-8 encoding of a character list. -/
def utf8Encode (cs : List Char) : List Nat := (cs.map utf8Bytes).flatten

/-- Lowercase hex digit for a nibble, as produced by `binascii.hexlify`. -/
def hexNibble (d : Nat) : Char :=
  if d < 10 then Char.ofNat (48 + d) else Char.ofNat (87 + d)

/-- binascii.hexlify: two lowercase hex characters per byte. -/
def hexlify : List Nat → List Char
  | [] => []
  | b :: bs => hexNibble (b / 16) :: hexNibble (b % 16) :: hexlify bs

/-- Value of one hex character (either case), none for a non-hex character. -/
def hexVal? (c : Char) : Option Nat :=
  if '0' ≤ c ∧ c ≤ '9' then some (c.toNat - 48)
  else if 'a' ≤ c ∧ c ≤ 'f' then some (c.toNat - 87)
  else if 'A' ≤ c ∧ c ≤ 'F' then some (c.toNat - 55)
  else none

/-- binascii.unhexlify: pairs of hex characters to bytes; `none` models the
exception Python raises on odd length or a non-hex character. -/
def unhexlifyOpt : List Char → Option (List Nat)
  | [] => some []
  | [_] => none
  | a :: b :: rest =>
    match hexVal? a, hexVal? b, unhexlifyOpt rest with
    | some hi, some lo, some bs => some ((16 * hi + lo) :: bs)
    | _, _, _ => none

/-- One row of users.csv: username, hex salt, hex hash, iteration count
(kept as a number; the program converts the stored string with `int`). -/
structure UserRecord where
  username : String
  salt : String
  hash : String
  iterations : Nat
deriving DecidableEq

/-- verify_password_pbkdf2 (VC.py lines 29-35): decode the stored salt from
hex, falling back to the UTF-8 bytes of the salt string itself when it is
not valid hex (the try/except), recompute the derived key, and compare its
hex form with the stored hash. -/
def verify_password_pbkdf2 (pbkdf2_hmac : List Nat → List Nat → Nat → List Nat)
    (password salt_hex hash_hex : String) (iterations : Nat) : Bool :=
  let salt := match unhexlifyOpt salt_hex.data with
    | some bs => bs
    | none => utf8Encode salt_hex.data
  let dk := pbkdf2_hmac (utf8Encode password.data) salt iterations
  hexlify dk == hash_hex.data

/-- add_user_to_csv (VC.py lines 37-49): hex-encode the fresh random salt
bytes (here an explicit argument), derive the key from the password and the
decoded salt, and append the row — unless the username already exists, in
which case a ValueError is raised and nothing is written.  A missing file
is the empty store, so both branches of the source are the append. -/
def add_user_to_csv (pbkdf2_hmac : List Nat → List Nat → Nat → List Nat)
    (saltBytes : List Nat) (username password : String) (iterations : Nat)
    (store : List UserRecord) : Except String (List UserRecord) :=
  let salt := String.mk (hexlify saltBytes)
  let dk := pbkdf2_hmac (utf8Encode password.data) ((unhexlifyOpt salt.data).getD []) iterations
  let hash_hex := String.mk (hexlify dk)
  if username ∈ store.map UserRecord.username then Except.error "Username already exists."
  else Except.ok (store ++ [⟨username, salt, hash_hex, iterations⟩])

/-- delete_user_from_csv (VC.py lines 51-56): a ValueError when the
username is absent, otherwise the rows with a different username. -/
def delete_user_from_csv (username : String)
    (store : List UserRecord) : Except String (List UserRecord) :=
  if username ∈ store.map UserRecord.username then
    Except.ok (store.filter (fun r => r.username != username))
  else Except.error "Username not found."

/-- The credential store after `delete_user_from_csv`: unchanged when the
call raised (no write to the file happens in that case). -/
def deleteUserRun (username : String) (store : List UserRecord) : List UserRecord :=
  match delete_user_from_csv username store with
  | Except.ok s => s
  | Except.error _ => store

/-- The verify step of login_ui (VC.py lines 186-198): filter the store by
username; an empty result is a failed login, otherwise the first matching
row is checked with verify_password_pbkdf2. -/
def verifyUser (pbkdf2_hmac : List Nat → List Nat → Nat → List Nat)
    (store : List UserRecord) (username password : String) : Bool :=
  match store.find? (fun r => r.username == username) with
  | none => false
  | some r => verify_password_pbkdf2 pbkdf2_hmac password r.salt r.hash r.iterations

/-- is_admin_user (VC.py lines 88-92): false on the empty store, else the
username is compared with the username of the first row. -/
def is_admin_user (username : String) (users : List UserRecord) : Bool :=
  match users with
  | [] => false
  | first :: _ => username == first.username

/-- What the User Management tab renders (VC.py lines 619-621). -/
inductive UserMgmtView where
  | management
  | warning (msg : String)
deriving DecidableEq

/-- The admin gate of the User Management tab: a non-admin gets the fixed
warning and the tab stops; an admin gets the management view. -/
def userManagementTab (admin_mode : Bool) : UserMgmtView :=
  if admin_mode then UserMgmtView.management
  else UserMgmtView.warning "Only the admin can manage users."

theorem data_mk (l : List Char) : (String.mk l).data = l := rfl

theorem hexVal_hexNibble : ∀ d < 16, hexVal? (hexNibble d) = some d := by decide

/-- Decoding inverts encoding on byte lists. -/
theorem unhexlify_hexlify : ∀ bs : List Nat, (∀ b ∈ bs, b < 256) →
    unhexlifyOpt (hexlify bs) = some bs := by
  intro bs
  induction bs with
  | nil => intro _; rfl
  | cons b tl ih =>
    intro h
    have hb : b < 256 := h b (List.mem_cons_self _ _)
    have h1 : hexVal? (hexNibble (b / 16)) = some (b / 16) := hexVal_hexNibble _ (by omega)
    have h2 : hexVal? (hexNibble (b % 16)) = some (b % 16) := hexVal_hexNibble _ (by omega)
    have htl := ih (fun x hx => h x (List.mem_cons_of_mem _ hx))
    simp only [hexlify, unhexlifyOpt, h1, h2, htl]
    have : 16 * (b / 16) + b % 16 = b := by omega
    rw [this]

theorem hexlify_inj (as bs : List Nat) (ha : ∀ b ∈ as, b < 256) (hb : ∀ b ∈ bs, b < 256)
    (h : hexlify as = hexlify bs) : as = bs := by
  have h1 := unhexlify_hexlify as ha
  have h2 := unhexlify_hexlify bs hb
  rw [h, h2] at h1
  exact (Option.some.inj h1).symm

/-- A login lookup misses every username not in the store. -/
theorem verifyUser_absent (pbkdf2_hmac : List Nat → List Nat → Nat → List Nat)
    (st : List UserRecord) (v q : String) (hv : v ∉ st.map UserRecord.username) :
    verifyUser pbkdf2_hmac st v q = false := by
  have hfind : st.find? (fun r => r.username == v) = none := by
    rw [List.find?_eq_none]
    intro r hr
    simp only [beq_iff_eq]
    intro heq
    exact hv (heq ▸ List.mem_map_of_mem UserRecord.username hr)
  simp [verifyUser, hfind]

/-- C1: creating a user stores a hex salt, a hex derived key, and the
iteration count; a verify against the resulting store returns true for the
same password, false for a password whose derived key differs, and false
for a username absent from a store.  The external PBKDF2 primitive is an
explicit parameter, assumed only to return bytes; the different-password
case additionally assumes the two derived keys differ (the real primitive
has no feasible collisions, but collision freeness is not provable of a
concrete hash). -/
theorem credential_create_verify
    (pbkdf2_hmac : List Nat → List Nat → Nat → List Nat)
    (hbytes : ∀ p s i, ∀ b ∈ pbkdf2_hmac p s i, b < 256)
    (saltBytes : List Nat) (hsalt : ∀ b ∈ saltBytes, b < 256)
    (u pw : String) (it : Nat) (store s₂ : List UserRecord)
    (hadd : add_user_to_csv pbkdf2_hmac saltBytes u pw it store = Except.ok s₂) :
    verifyUser pbkdf2_hmac s₂ u pw = true
    ∧ (∀ pw₂ : String,
        pbkdf2_hmac (utf8Encode pw₂.data) saltBytes it
          ≠ pbkdf2_hmac (utf8Encode pw.data) saltBytes it →
        verifyUser pbkdf2_hmac s₂ u pw₂ = false)
    ∧ (∀ (st : List UserRecord) (v q : String), v ∉ st.map UserRecord.username →
        verifyUser pbkdf2_hmac st v q = false) := by
  have hdecode : unhexlifyOpt (String.mk (hexlify saltBytes)).data = some saltBytes := by
    rw [data_mk]
    exact unhexlify_hexlify saltBytes hsalt
  by_cases hmem : u ∈ store.map UserRecord.username
  · simp [add_user_to_csv, hmem] at hadd
  · rw [add_user_to_csv] at hadd
    simp only [hmem, if_false, Except.ok.injEq] at hadd
    set rec : UserRecord :=
      ⟨u, String.mk (hexlify saltBytes),
       String.mk (hexlify (pbkdf2_hmac (utf8Encode pw.data)
         ((unhexlifyOpt (String.mk (hexlify saltBytes)).data).getD []) it)), it⟩ with hrec
    have hstore : s₂ = store ++ [rec] := hadd.symm
    have hfindnone : store.find? (fun r => r.username == u) = none := by
      rw [List.find?_eq_none]
      intro r hr
      simp only [beq_iff_eq]
      intro heq
      exact hmem (heq ▸ List.mem_map_of_mem UserRecord.username hr)
    have hfind : s₂.find? (fun r => r.username == u) = some rec := by
      rw [hstore, List.find?_append, hfindnone]
      simp [hrec]
    have hsalteq : rec.salt = String.mk (hexlify saltBytes) := rfl
    have hhash : rec.hash.data
        = hexlify (pbkdf2_hmac (utf8Encode pw.data) saltBytes it) := by
      rw [hrec]
      simp only [data_mk, hdecode, Option.getD_some]
    refine ⟨?_, ?_, fun st v q hv => verifyUser_absent pbkdf2_hmac st v q hv⟩
    · simp only [verifyUser, hfind, verify_password_pbkdf2, hsalteq, hdecode, hhash]
      exact beq_self_eq_true _
    · intro pw₂ hne
      simp only [verifyUser, hfind, verify_password_pbkdf2, hsalteq, hdecode, hhash]
      rw [beq_eq_false_iff_ne]
      intro heq
      exact hne (hexlify_inj _ _ (hbytes _ _ _) (hbytes _ _ _) heq)

theorem credential_create_verify_witness :
    (verifyUser (fun p _ _ => p.map (fun b => b % 256))
        [⟨"u", "0001", "61", 1⟩] "u" "a" = true)
    ∧ (verifyUser (fun p _ _ => p.map (fun b => b % 256))
        [⟨"u", "0001", "61", 1⟩] "u" "b" = false)
    ∧ (verifyUser (fun p _ _ => p.map (fun b => b % 256))
        [⟨"u", "0001", "61", 1⟩] "ghost" "a" = false) := by
  have h := credential_create_verify (fun p _ _ => p.map (fun b => b % 256))
    (fun p s i b hb => by
      rcases List.mem_map.mp hb with ⟨x, _, rfl⟩
      exact Nat.mod_lt _ (by omega))
    [0, 1] (by decide) "u" "a" 1 [] [⟨"u", "0001", "61", 1⟩] (by rfl)
  exact ⟨h.1, h.2.1 "b" (by decide), h.2.2 [⟨"u", "0001", "61", 1⟩] "ghost" "a" (by decide)⟩

/-- C6: deleting a username absent from the credential store raises the
not-found error, and the store is unchanged (nothing is written by the
raising call), so its set of records and row count are identical. -/
theorem delete_missing_user (u : String) (store : List UserRecord)
    (h : u ∉ store.map UserRecord.username) :
    delete_user_from_csv u store = Except.error "Username not found."
    ∧ deleteUserRun u store = store := by
  have he : delete_user_from_csv u store = Except.error "Username not found." := by
    simp [delete_user_from_csv, h]
  exact ⟨he, by simp [deleteUserRun, he]⟩

theorem delete_missing_user_witness :
    delete_user_from_csv "ghost" [⟨"alice", "s", "h", 1⟩] = Except.error "Username not found."
    ∧ deleteUserRun "ghost" [⟨"alice", "s", "h", 1⟩] = [⟨"alice", "s", "h", 1⟩] :=
  delete_missing_user "ghost" [⟨"alice", "s", "h", 1⟩] (by decide)

/-- C8: a user is admin iff the credential store is non-empty and the
username equals the username of the first row, and the User Management tab
renders the management view exactly for an admin, a fixed warning
otherwise. -/
theorem admin_gate (u : String) (users : List UserRecord) :
    (is_admin_user u users = true
      ↔ ∃ first rest, users = first :: rest ∧ u = first.username)
    ∧ (userManagementTab (is_admin_user u users) = UserMgmtView.management
      ↔ is_admin_user u users = true)
    ∧ (is_admin_user u users = false →
        userManagementTab (is_admin_user u users)
          = UserMgmtView.warning "Only the admin can manage users.") := by
  refine ⟨?_, ?_, fun h => by simp [userManagementTab, h]⟩
  · cases users with
    | nil => simp [is_admin_user]
    | cons first rest =>
      simp only [is_admin_user, beq_iff_eq]
      constructor
      · intro h
        exact ⟨first, rest, rfl, h⟩
      · rintro ⟨f, r, heq, hu⟩
        cases heq
        exact hu
  · cases his : is_admin_user u users <;> simp [userManagementTab, his]

theorem admin_gate_witness :
    is_admin_user "bob" [⟨"alice", "s", "h", 1⟩] = false
    ∧ userManagementTab (is_admin_user "bob" [⟨"alice", "s", "h", 1⟩])
        = UserMgmtView.warning "Only the admin can manage users." :=
  ⟨by decide, (admin_gate "bob" [⟨"alice", "s", "h", 1⟩]).2.2 (by decide)⟩

/-- C10: verify_password_pbkdf2 is total in the stored salt — on a salt
string that is not valid hex it does not fail but uses the UTF-8 bytes of
the salt string itself, still returning the boolean comparison of the
recomputed key against the stored hash. -/
theorem verify_salt_fallback (pbkdf2_hmac : List Nat → List Nat → Nat → List Nat)
    (pw salt_hex hash_hex : String) (it : Nat)
    (h : unhexlifyOpt salt_hex.data = none) :
    verify_password_pbkdf2 pbkdf2_hmac pw salt_hex hash_hex it
      = (hexlify (pbkdf2_hmac (utf8Encode pw.data) (utf8Encode salt_hex.data) it)
          == hash_hex.data) := by
  simp [verify_password_pbkdf2, h]

theorem verify_salt_fallback_witness :
    unhexlifyOpt ("zz" : String).data = none
    ∧ verify_password_pbkdf2 (fun _ s _ => s) "pw" "zz" "7a7a" 1
        = (hexlify ((fun (_ : List Nat) (s : List Nat) (_ : Nat) => s)
            (utf8Encode ("pw" : String).data) (utf8Encode ("zz" : String).data) 1)
            == ("7a7a" : String).data)
    ∧ verify_password_pbkdf2 (fun _ s _ => s) "pw" "zz" "7a7a" 1 = true :=
  ⟨by decide, verify_salt_fallback (fun _ s _ => s) "pw" "zz" "7a7a" 1 (by decide), by decide⟩

/-! Expiry Monitor tab (VC.py lines 433-457).  Timestamps are modelled at
day granularity as integers (days since an arbitrary epoch);
`pd.to_datetime(col, errors="coerce")` is an external parser abstracted as
a parameter returning `none` for an unparsable date string (NaT). -/

/-- The `Days to Expiry` column value of one row: parsed expiry minus
today, `none` (NaN) when the expiry date did not parse (VC.py line 435). -/
def mkDaysToExpiry (today : Int) (parsed : Option Int) : Option Int :=
  parsed.map (fun e => e - today)

/-- The `Expiry Status` label assigned by
`pd.cut(days.fillna(999999), bins=[-99999, 0, 30, 90, 365, 999999], labels=[...])`
(VC.py lines 454-456): half-open bins, left edge excluded, right edge
included; a value outside every bin gets no label (NaN). -/
def expiryStatus (days : Option Int) : Option String :=
  let d := days.getD 999999
  if -99999 < d ∧ d ≤ 0 then some "Expired"
  else if 0 < d ∧ d ≤ 30 then some "<30 days"
  else if 30 < d ∧ d ≤ 90 then some "30-90 days"
  else if 90 < d ∧ d ≤ 365 then some "3-12 months"
  else if 365 < d ∧ d ≤ 999999 then some ">1 year"
  else none

/-- Membership in the `All with expiry dates` listing (VC.py line 446):
the parsed date is not NaT, i.e. the days value is not NaN. -/
def inAllWithExpiry (days : Option Int) : Bool := days.isSome

/-- Membership in the `Expired (<=0 days)` filter (VC.py line 448); every
comparison with NaN is false, so an unparsable date is excluded. -/
def inExpired (days : Option Int) : Bool :=
  match days with
  | some d => decide (d ≤ 0)
  | none => false

/-- Membership in the `Expiring <30 days` filter (VC.py line 450). -/
def inExpiring30 (days : Option Int) : Bool :=
  match days with
  | some d => decide (0 < d ∧ d ≤ 30)
  | none => false

/-- Membership in the `Expiring <90 days` filter (VC.py line 452). -/
def inExpiring90 (days : Option Int) : Bool :=
  match days with
  | some d => decide (0 < d ∧ d ≤ 90)
  | none => false

/-- The rows of exp_df: every row of the inventory, each paired with its
`Days to Expiry` value (the table copy keeps all rows; only the filters
drop any). -/
def buildExpDf (parseDate : String → Option Int) (today : Int)
    (rows : List String) : List (String × Option Int) :=
  rows.map (fun r => (r, mkDaysToExpiry today (parseDate r)))

/-- C4: for every current day, an item expiring exactly 90 days from today
is classified `30-90 days` (not `Expired`, not `>1 year`), and a row whose
expiry date string does not parse stays in exp_df with the NaN days marker
while being excluded from all four date-bounded filters. -/
theorem expiry_classification
    (parseDate : String → Option Int) (today e : Int) (rows : List String) (s : String)
    (hmem : s ∈ rows) (hbad : parseDate s = none) (h90 : e = today + 90) :
    expiryStatus (mkDaysToExpiry today (some e)) = some "30-90 days"
    ∧ expiryStatus (mkDaysToExpiry today (some e)) ≠ some "Expired"
    ∧ expiryStatus (mkDaysToExpiry today (some e)) ≠ some ">1 year"
    ∧ (s, (none : Option Int)) ∈ buildExpDf parseDate today rows
    ∧ inAllWithExpiry (mkDaysToExpiry today (parseDate s)) = false
    ∧ inExpired (mkDaysToExpiry today (parseDate s)) = false
    ∧ inExpiring30 (mkDaysToExpiry today (parseDate s)) = false
    ∧ inExpiring90 (mkDaysToExpiry today (parseDate s)) = false := by
  have hd : mkDaysToExpiry today (some e) = some 90 := by
    simp [mkDaysToExpiry, h90]
  have hstat : expiryStatus (mkDaysToExpiry today (some e)) = some "30-90 days" := by
    rw [hd]
    decide
  have hrow : (s, (none : Option Int)) ∈ buildExpDf parseDate today rows := by
    have : (s, mkDaysToExpiry today (parseDate s)) ∈ buildExpDf parseDate today rows :=
      List.mem_map_of_mem _ hmem
    simpa [hbad, mkDaysToExpiry] using this
  refine ⟨hstat, ?_, ?_, hrow, ?_, ?_, ?_, ?_⟩
  · rw [hd]; decide
  · rw [hd]; decide
  · simp [hbad, mkDaysToExpiry, inAllWithExpiry]
  · simp [hbad, mkDaysToExpiry, inExpired]
  · simp [hbad, mkDaysToExpiry, inExpiring30]
  · simp [hbad, mkDaysToExpiry, inExpiring90]

theorem expiry_classification_witness :
    expiryStatus (mkDaysToExpiry 0 (some 90)) = some "30-90 days"
    ∧ ("bogus", (none : Option Int)) ∈ buildExpDf (fun _ => none) 0 ["bogus"]
    ∧ inAllWithExpiry (mkDaysToExpiry 0 ((fun (_ : String) => none) "bogus")) = false :=
  have h := expiry_classification (fun _ => none) 0 90 ["bogus"] "bogus"
    (by decide) rfl (by decide)
  ⟨h.1, h.2.2.2.1, h.2.2.2.2.1⟩

end Dashboard
